import Mathlib

/-!
# Verification of the navigation router (`createRouter` in `router.ts`)

Shallow embedding of the router subsystem: the reducer folding
`NavigationComplete` into `RouterState`, the reaction pipeline that
processes a trigger action (`Navigate`, `InterceptLeaveRedirect`,
`InterceptEnterRedirect`) by running the leave/enter interception loops
and emitting an ordered list of actions, and the serialized driver that
consumes triggers one at a time.

`Url`, `Route`, `RouteConfig` and the `RouteMatcher` come from modules
outside the router source file; they are modelled from the spec as an
opaque comparable url value, a matched route instance carrying its
config id, a config record of four optional hooks, and an abstract
matcher interface (`match : path -> routes`, `getRouteConfig : id ->
config?`).  Hooks may throw; this is modelled with `Except`.
-/

namespace Router

/-- Modelled from the spec: `Url` (module `url.ts`, not part of the router
source) is an opaque structured location value compared structurally; the
router only reads its `path`. -/
structure Url where
  path : String
deriving DecidableEq, Repr

/-- Modelled from the spec: `Route<DATA>` (module `route.ts`, not part of the
router source) is a matched instance referencing its originating
`RouteConfig` id together with resolved parameters. -/
structure Route where
  routeConfigId : Nat
  params : List (String × String) := []
deriving DecidableEq, Repr

/-- `RouterState<DATA>`: the committed url and the committed ordered route
hierarchy (source lines 21–24). -/
structure RouterState where
  url : Url
  routes : List Route
deriving DecidableEq, Repr

/-- The router's action union (source lines 44–49), plus an `Other`
constructor standing for actions produced by `dispatchOnLeave` /
`dispatchOnEnter` hooks and foreign actions of other slices, which the
router reducer ignores. -/
inductive Action where
  | Navigate (url : Url)
  | InterceptLeaveRedirect (url : Url)
  | InterceptEnterRedirect (url : Url)
  | NavigationComplete (url : Url) (routes : List Route)
  | Other (tag : Nat)
deriving DecidableEq, Repr

/-- A guard hook's result, `boolean | Url` in the source: `bool true`
lets navigation continue, `bool false` aborts it, `url u` redirects. -/
inductive GuardResult where
  | bool (b : Bool)
  | url (u : Url)
deriving DecidableEq, Repr

/-- Exception payload of a throwing hook (opaque). -/
def Err : Type := Nat

/-- Modelled from the spec: `RouteConfig<DATA, METADATA>` (module
`router-config.ts`, not part of the router source), restricted to the four
optional hooks the reaction invokes.  Each hook receives the store
snapshot, `prevUrl` and the route; a throwing hook is an `Except.error`. -/
structure RouteConfig where
  interceptLeave : Option (RouterState → Url → Route → Except Err GuardResult) := none
  interceptEnter : Option (RouterState → Url → Route → Except Err GuardResult) := none
  dispatchOnLeave : Option (RouterState → Url → Route → Except Err Action) := none
  dispatchOnEnter : Option (RouterState → Url → Route → Except Err Action) := none

/-- Modelled from the spec: the compiled `RouteMatcher` (module
`route-matcher.ts`, not part of the router source) as an abstract
interface: a pure total map from a path to the matched ordered hierarchy,
and the id → config registry lookup. -/
structure RouteMatcher where
  «match» : String → List Route
  getRouteConfig : Nat → Option RouteConfig

/-- Modelled from the spec: `createUrl()` with no argument (module
`url.ts`) produces a default empty url; used for the reducer's initial
state. -/
def createUrl : Url := { path := "" }

/-- The router reducer (source lines 51–60): `NavigationComplete` replaces
`url` and `routes` together; every other action is identity. -/
def routerReducer (state : RouterState) (a : Action) : RouterState :=
  match a with
  | Action.NavigationComplete url routes => { url := url, routes := routes }
  | _ => state

/-- The reducer's initial state (source lines 51–54). -/
def routerInitialState : RouterState :=
  { url := createUrl, routes := [] }

/-- Outcome of one interception loop: `proceed` with the collected
dispatch actions, `abort` (a guard returned `false`, the source returns
`EMPTY`), or `redirect` (a guard returned a `Url`). -/
inductive PhaseOutcome where
  | proceed (actions : List Action)
  | abort
  | redirect (url : Url)
deriving DecidableEq, Repr

/-- The guard block of one loop iteration (source lines 95–110 and
126–141): no hook or `true` falls through (`none`); `false` requests an
immediate `abort`; a url requests an immediate `redirect`; a throwing
hook propagates. -/
def guardStep
    (guard : Option (RouterState → Url → Route → Except Err GuardResult))
    (store : RouterState) (prevUrl : Url) (route : Route) :
    Except Err (Option PhaseOutcome) :=
  match guard with
  | none => Except.ok none
  | some g =>
    match g store prevUrl route with
    | Except.error e => Except.error e
    | Except.ok (GuardResult.bool b) =>
      if b then Except.ok none else Except.ok (some PhaseOutcome.abort)
    | Except.ok (GuardResult.url u) => Except.ok (some (PhaseOutcome.redirect u))

/-- The interception loop shared by the leave phase (source lines 91–116)
and the enter phase (source lines 122–147): for each route in order, run
the guard block — `false` returns `abort` immediately, a url returns
`redirect` immediately, a throw propagates — then, if the route's config
has a dispatch hook, collect the produced action. -/
def hookPhase
    (guard : Route → Option (RouterState → Url → Route → Except Err GuardResult))
    (dispatch : Route → Option (RouterState → Url → Route → Except Err Action))
    (store : RouterState) (prevUrl : Url) : List Route → Except Err PhaseOutcome
  | [] => Except.ok (PhaseOutcome.proceed [])
  | route :: rest =>
    match guardStep (guard route) store prevUrl route with
    | Except.error e => Except.error e
    | Except.ok (some out) => Except.ok out
    | Except.ok none =>
      match dispatch route with
      | none => hookPhase guard dispatch store prevUrl rest
      | some d =>
        match d store prevUrl route with
        | Except.error e => Except.error e
        | Except.ok a =>
          match hookPhase guard dispatch store prevUrl rest with
          | Except.error e => Except.error e
          | Except.ok (PhaseOutcome.proceed as) => Except.ok (PhaseOutcome.proceed (a :: as))
          | Except.ok out => Except.ok out

/-- `routeConfig?.interceptLeave` for a route (source lines 92–95). -/
def leaveGuard (m : RouteMatcher) (route : Route) :
    Option (RouterState → Url → Route → Except Err GuardResult) :=
  (m.getRouteConfig route.routeConfigId).bind RouteConfig.interceptLeave

/-- `routeConfig?.dispatchOnLeave` for a route (source line 111). -/
def leaveDispatch (m : RouteMatcher) (route : Route) :
    Option (RouterState → Url → Route → Except Err Action) :=
  (m.getRouteConfig route.routeConfigId).bind RouteConfig.dispatchOnLeave

/-- `routeConfig?.interceptEnter` for a route (source lines 123–126). -/
def enterGuard (m : RouteMatcher) (route : Route) :
    Option (RouterState → Url → Route → Except Err GuardResult) :=
  (m.getRouteConfig route.routeConfigId).bind RouteConfig.interceptEnter

/-- `routeConfig?.dispatchOnEnter` for a route (source line 142). -/
def enterDispatch (m : RouteMatcher) (route : Route) :
    Option (RouterState → Url → Route → Except Err Action) :=
  (m.getRouteConfig route.routeConfigId).bind RouteConfig.dispatchOnEnter

/-- The leave loop of the pipeline (source lines 91–116). -/
def leavePhase (m : RouteMatcher) (store : RouterState) (prevUrl : Url)
    (routes : List Route) : Except Err PhaseOutcome :=
  hookPhase (leaveGuard m) (leaveDispatch m) store prevUrl routes

/-- The enter loop of the pipeline (source lines 122–147). -/
def enterPhase (m : RouteMatcher) (store : RouterState) (prevUrl : Url)
    (routes : List Route) : Except Err PhaseOutcome :=
  hookPhase (enterGuard m) (enterDispatch m) store prevUrl routes

/-- One pass of the reaction pipeline for a trigger carrying `targetUrl`
(source lines 86–157): snapshot `prevUrl`/`prevRoutes` from the store, run
the leave loop over `prevRoutes`, compute `nextRoutes = match(targetUrl.path)`,
run the enter loop over `nextRoutes`, and emit — in order — the collected
leave actions, one `NavigationComplete`, the collected enter actions.
A guard `false` emits nothing (`EMPTY`); a guard url emits only the
redirect trigger; a throw propagates as `Except.error`. -/
def processTrigger (m : RouteMatcher) (store : RouterState) (targetUrl : Url) :
    Except Err (List Action) :=
  let prevUrl := store.url
  let prevRoutes := store.routes
  match leavePhase m store prevUrl prevRoutes with
  | Except.error e => Except.error e
  | Except.ok PhaseOutcome.abort => Except.ok []
  | Except.ok (PhaseOutcome.redirect u) =>
    Except.ok [Action.InterceptLeaveRedirect u]
  | Except.ok (PhaseOutcome.proceed dispatchOnLeaveActs) =>
    let nextUrl := targetUrl
    let nextRoutes := m.«match» targetUrl.path
    match enterPhase m store prevUrl nextRoutes with
    | Except.error e => Except.error e
    | Except.ok PhaseOutcome.abort => Except.ok []
    | Except.ok (PhaseOutcome.redirect u) =>
      Except.ok [Action.InterceptEnterRedirect u]
    | Except.ok (PhaseOutcome.proceed dispatchOnEnterActs) =>
      Except.ok (dispatchOnLeaveActs ++
        Action.NavigationComplete nextUrl nextRoutes :: dispatchOnEnterActs)

/-- Fold a list of emitted actions into the committed state, in emission
order, through the reducer. -/
def applyActions (st : RouterState) (acts : List Action) : RouterState :=
  acts.foldl routerReducer st

/-- The redirect trigger re-entering the serialized queue, if any: a pass
that redirects emits exactly one `InterceptLeaveRedirect` or
`InterceptEnterRedirect` action. -/
def redirectTarget (acts : List Action) : Option Url :=
  match acts with
  | [Action.InterceptLeaveRedirect u] => some u
  | [Action.InterceptEnterRedirect u] => some u
  | _ => none

/-- Modelled from the spec: the serialized `concatMap` driver (the store
machinery of `@lib/store` and rxjs is not part of the router source).
A trigger's full pipeline, including nested redirect re-entries, completes
before the next independently dispatched trigger begins; each emitted
action is folded into the store in emission order.  `fuel` bounds the
redirect sub-loop, which the code itself does not bound; `none` means the
fuel ran out. -/
def drainTrigger (m : RouteMatcher) :
    Nat → RouterState → Url → Except Err (Option (RouterState × List Action))
  | 0, _, _ => Except.ok none
  | Nat.succ fuel, st, u =>
    match processTrigger m st u with
    | Except.error e => Except.error e
    | Except.ok acts =>
      let st2 := applyActions st acts
      match redirectTarget acts with
      | none => Except.ok (some (st2, acts))
      | some u2 =>
        match drainTrigger m fuel st2 u2 with
        | Except.error e => Except.error e
        | Except.ok none => Except.ok none
        | Except.ok (some (st3, acts2)) => Except.ok (some (st3, acts ++ acts2))

/-- Modelled from the spec: independently dispatched `Navigate` triggers
are consumed strictly in dispatch order, each drained to completion before
the next begins. -/
def runTriggers (m : RouteMatcher) (fuel : Nat) :
    RouterState → List Url → Except Err (Option (RouterState × List Action))
  | st, [] => Except.ok (some (st, []))
  | st, u :: rest =>
    match drainTrigger m fuel st u with
    | Except.error e => Except.error e
    | Except.ok none => Except.ok none
    | Except.ok (some (st2, acts)) =>
      match runTriggers m fuel st2 rest with
      | Except.error e => Except.error e
      | Except.ok none => Except.ok none
      | Except.ok (some (st3, acts2)) => Except.ok (some (st3, acts ++ acts2))

/-- The bootstrap reaction (source lines 162–164):
`of(routerActions.Navigate({ url: createUrl() }))` — a single `Navigate`
trigger carrying the current url, synthesized once at construction.
`createUrl()`'s reading of the ambient current location (module `url.ts`,
not part of the router source) is abstracted as the `currentUrl`
argument. -/
def bootstrapReaction (currentUrl : Url) : List Action :=
  [Action.Navigate currentUrl]

/-- Whether an action is the commit action. -/
def isNavigationComplete : Action → Bool
  | Action.NavigationComplete _ _ => true
  | _ => false

instance : DecidableEq Err := inferInstanceAs (DecidableEq Nat)

/-- A route is clean for a phase when its guard hook, if any, returns
`true`, and its dispatch hook, if any, returns without throwing: the loop
iteration for such a route falls through to the next route. -/
def routeClean
    (guard : Route → Option (RouterState → Url → Route → Except Err GuardResult))
    (dispatch : Route → Option (RouterState → Url → Route → Except Err Action))
    (store : RouterState) (prevUrl : Url) (r : Route) : Prop :=
  (∀ g, guard r = some g → g store prevUrl r = Except.ok (GuardResult.bool true)) ∧
  (∀ d, dispatch r = some d → ∃ a, d store prevUrl r = Except.ok a)

/-- The dispatch actions a list of routes contributes, in route order. -/
def collectDispatch
    (dispatch : Route → Option (RouterState → Url → Route → Except Err Action))
    (store : RouterState) (prevUrl : Url) : List Route → List Action
  | [] => []
  | r :: rest =>
    match dispatch r with
    | none => collectDispatch dispatch store prevUrl rest
    | some d =>
      match d store prevUrl r with
      | Except.ok a => a :: collectDispatch dispatch store prevUrl rest
      | Except.error _ => collectDispatch dispatch store prevUrl rest

/-! ## Concrete fixtures

A small concrete registry in the shape of the spec's worked example
(`[{id:1, pattern:'/a'}, {id:2, pattern:'/b', interceptEnter: () => false}]`),
plus variants with dispatch, redirect and throwing hooks, used to
instantiate the theorems below on closed inputs. -/

def urlRoot : Url := { path := "/" }

def urlA : Url := { path := "/a" }

def urlB : Url := { path := "/b" }

def routeA : Route := { routeConfigId := 1 }

def routeB : Route := { routeConfigId := 2 }

/-- Hook producing a plain side-effect action on leave. -/
def leaveHookD : RouterState → Url → Route → Except Err Action :=
  fun _ _ _ => Except.ok (Action.Other 10)

/-- Hook producing a plain side-effect action on enter. -/
def enterHookD : RouterState → Url → Route → Except Err Action :=
  fun _ _ _ => Except.ok (Action.Other 20)

/-- Guard rejecting navigation. -/
def rejectHook : RouterState → Url → Route → Except Err GuardResult :=
  fun _ _ _ => Except.ok (GuardResult.bool false)

/-- Guard redirecting to `/a`. -/
def redirectHookA : RouterState → Url → Route → Except Err GuardResult :=
  fun _ _ _ => Except.ok (GuardResult.url urlA)

/-- Guard that throws. -/
def throwHook : RouterState → Url → Route → Except Err GuardResult :=
  fun _ _ _ => Except.error (7 : Nat)

def cfgPlain : RouteConfig := {}

def cfgRejectEnter : RouteConfig := { interceptEnter := some rejectHook }

def cfgRedirectEnter : RouteConfig := { interceptEnter := some redirectHookA }

def cfgThrowEnter : RouteConfig := { interceptEnter := some throwHook }

def cfgDispatchLeave : RouteConfig := { dispatchOnLeave := some leaveHookD }

def cfgDispatchBoth : RouteConfig :=
  { dispatchOnLeave := some leaveHookD, dispatchOnEnter := some enterHookD }

/-- The spec's worked-example matcher: `/a` matches route 1 (no hooks),
`/b` matches route 2 whose `interceptEnter` returns `false`. -/
def exMatcher : RouteMatcher where
  «match» := fun p => if p = "/a" then [routeA] else if p = "/b" then [routeB] else []
  getRouteConfig := fun i =>
    if i = 1 then some cfgPlain else if i = 2 then some cfgRejectEnter else none

/-- Variant: route 1 dispatches on leave and enter, route 2 redirects
`interceptEnter` to `/a`. -/
def exMatcherRedirect : RouteMatcher where
  «match» := fun p => if p = "/a" then [routeA] else if p = "/b" then [routeB] else []
  getRouteConfig := fun i =>
    if i = 1 then some cfgDispatchBoth else if i = 2 then some cfgRedirectEnter else none

/-- Variant: route 2's `interceptEnter` throws. -/
def exMatcherThrow : RouteMatcher where
  «match» := fun p => if p = "/a" then [routeA] else if p = "/b" then [routeB] else []
  getRouteConfig := fun i =>
    if i = 1 then some cfgPlain else if i = 2 then some cfgThrowEnter else none

/-- State with `/a` committed as the current hierarchy. -/
def stA : RouterState := { url := urlA, routes := [routeA] }

section PhaseLemmas

variable {guard : Route → Option (RouterState → Url → Route → Except Err GuardResult)}
variable {dispatch : Route → Option (RouterState → Url → Route → Except Err Action)}
variable {store : RouterState} {prevUrl : Url}

/-- A clean prefix of routes is traversed without stopping: the phase over
`pre ++ rs` is the phase over `rs`, with the prefix's dispatch actions
prepended when the tail proceeds. -/
theorem hookPhase_append_clean (pre rs : List Route)
    (h : ∀ r ∈ pre, routeClean guard dispatch store prevUrl r) :
    hookPhase guard dispatch store prevUrl (pre ++ rs) =
      match hookPhase guard dispatch store prevUrl rs with
      | Except.ok (PhaseOutcome.proceed acts) =>
        Except.ok (PhaseOutcome.proceed
          (collectDispatch dispatch store prevUrl pre ++ acts))
      | out => out := by
  induction pre with
  | nil =>
    simp only [List.nil_append, collectDispatch]
    cases hookPhase guard dispatch store prevUrl rs with
    | error e => rfl
    | ok o => cases o <;> simp
  | cons r pre ih =>
    have hr := h r (List.mem_cons_self r pre)
    have hrest : ∀ x ∈ pre, routeClean guard dispatch store prevUrl x :=
      fun x hx => h x (List.mem_cons_of_mem r hx)
    have hstep : guardStep (guard r) store prevUrl r = Except.ok none := by
      cases hg : guard r with
      | none => rfl
      | some g => simp only [guardStep, hr.1 g hg, if_true]
    cases hd : dispatch r with
    | none =>
      simp only [List.cons_append, hookPhase, hstep, hd, List.append_eq,
        ih hrest, collectDispatch]
    | some d =>
      obtain ⟨a, ha⟩ := hr.2 d hd
      simp only [List.cons_append, hookPhase, hstep, hd, ha, List.append_eq,
        ih hrest, collectDispatch]
      cases hookPhase guard dispatch store prevUrl rs with
      | error e => rfl
      | ok o => cases o <;> simp

/-- A whole list of clean routes proceeds with exactly its dispatch
actions, in route order. -/
theorem hookPhase_clean (routes : List Route)
    (h : ∀ r ∈ routes, routeClean guard dispatch store prevUrl r) :
    hookPhase guard dispatch store prevUrl routes =
      Except.ok (PhaseOutcome.proceed
        (collectDispatch dispatch store prevUrl routes)) := by
  have := hookPhase_append_clean routes [] h
  simpa [hookPhase] using this

/-- A guard returning `false` stops the loop at once with `abort`. -/
theorem hookPhase_cons_reject {r : Route} {rest : List Route}
    {g : RouterState → Url → Route → Except Err GuardResult}
    (hg : guard r = some g)
    (hres : g store prevUrl r = Except.ok (GuardResult.bool false)) :
    hookPhase guard dispatch store prevUrl (r :: rest) =
      Except.ok PhaseOutcome.abort := by
  simp [hookPhase, guardStep, hg, hres]

/-- A guard returning a url stops the loop at once with `redirect`. -/
theorem hookPhase_cons_redirect {r : Route} {rest : List Route} {u : Url}
    {g : RouterState → Url → Route → Except Err GuardResult}
    (hg : guard r = some g)
    (hres : g store prevUrl r = Except.ok (GuardResult.url u)) :
    hookPhase guard dispatch store prevUrl (r :: rest) =
      Except.ok (PhaseOutcome.redirect u) := by
  simp only [hookPhase, guardStep, hg, hres]

/-- A throwing guard propagates out of the loop at once. -/
theorem hookPhase_cons_guard_throw {r : Route} {rest : List Route} {e : Err}
    {g : RouterState → Url → Route → Except Err GuardResult}
    (hg : guard r = some g)
    (hres : g store prevUrl r = Except.error e) :
    hookPhase guard dispatch store prevUrl (r :: rest) = Except.error e := by
  simp only [hookPhase, guardStep, hg, hres]

/-- A throwing dispatch hook propagates out of the loop at once (after its
guard, if any, returned `true`). -/
theorem hookPhase_cons_dispatch_throw {r : Route} {rest : List Route} {e : Err}
    {d : RouterState → Url → Route → Except Err Action}
    (hstep : guardStep (guard r) store prevUrl r = Except.ok none)
    (hd : dispatch r = some d)
    (hres : d store prevUrl r = Except.error e) :
    hookPhase guard dispatch store prevUrl (r :: rest) = Except.error e := by
  simp only [hookPhase, hstep, hd, hres]

/-- A route whose guard block falls through and which has no dispatch hook
is transparent to the loop. -/
theorem hookPhase_cons_skip {r : Route} {rest : List Route}
    (hstep : guardStep (guard r) store prevUrl r = Except.ok none)
    (hd : dispatch r = none) :
    hookPhase guard dispatch store prevUrl (r :: rest) =
      hookPhase guard dispatch store prevUrl rest := by
  simp only [hookPhase, hstep, hd]

/-- The loop only looks at the tail through its own recursion: equal tails
give equal phases under any common prefix. -/
theorem hookPhase_append_congr (pre : List Route) {xs ys : List Route}
    (h : hookPhase guard dispatch store prevUrl xs =
         hookPhase guard dispatch store prevUrl ys) :
    hookPhase guard dispatch store prevUrl (pre ++ xs) =
      hookPhase guard dispatch store prevUrl (pre ++ ys) := by
  induction pre with
  | nil => simpa using h
  | cons r pre ih =>
    simp only [List.cons_append, hookPhase, List.append_eq, ih]

end PhaseLemmas

/-- Any action other than `NavigationComplete` is identity for the
reducer. -/
theorem routerReducer_other {a : Action} (st : RouterState)
    (h : isNavigationComplete a = false) : routerReducer st a = st := by
  cases a <;> simp_all [routerReducer, isNavigationComplete]

/-- Folding a list of non-commit actions leaves the state unchanged. -/
theorem applyActions_no_commit {acts : List Action} (st : RouterState)
    (h : ∀ a ∈ acts, isNavigationComplete a = false) :
    applyActions st acts = st := by
  induction acts generalizing st with
  | nil => rfl
  | cons a acts ih =>
    have ha := h a (List.mem_cons_self a acts)
    have hrest : ∀ x ∈ acts, isNavigationComplete x = false :=
      fun x hx => h x (List.mem_cons_of_mem a hx)
    simp only [applyActions, List.foldl_cons] at *
    rw [routerReducer_other st ha]
    exact ih st hrest

/-- Folding a successful pass's emission — non-commit leave actions, the
single commit, non-commit enter actions — replaces `url` and `routes`
together with the commit's payload. -/
theorem applyActions_success {L E : List Action} (st : RouterState)
    (u : Url) (R : List Route)
    (hL : ∀ a ∈ L, isNavigationComplete a = false)
    (hE : ∀ a ∈ E, isNavigationComplete a = false) :
    applyActions st (L ++ Action.NavigationComplete u R :: E) =
      { url := u, routes := R } := by
  have h1 : applyActions st (L ++ Action.NavigationComplete u R :: E) =
      applyActions (applyActions st L) (Action.NavigationComplete u R :: E) := by
    simp [applyActions, List.foldl_append]
  rw [h1, applyActions_no_commit st hL]
  show applyActions (routerReducer st (Action.NavigationComplete u R)) E = _
  rw [show routerReducer st (Action.NavigationComplete u R) =
      { url := u, routes := R } from rfl]
  exact applyActions_no_commit _ hE

/-- A list with two or more actions is never a redirect trigger
singleton. -/
theorem redirectTarget_cons_cons (a b : Action) (rest : List Action) :
    redirectTarget (a :: b :: rest) = none := by
  cases a <;> rfl

/-- The emission of a successful pass is not a redirect trigger: the
serialized driver stops after folding it. -/
theorem redirectTarget_commit (L E : List Action) (u : Url) (R : List Route) :
    redirectTarget (L ++ Action.NavigationComplete u R :: E) = none := by
  cases L with
  | nil =>
    cases E with
    | nil => rfl
    | cons a E => rfl
  | cons l L =>
    cases hT : L ++ Action.NavigationComplete u R :: E with
    | nil => simp at hT
    | cons y ys =>
      rw [List.cons_append, hT]
      exact redirectTarget_cons_cons l y ys

/-- A pass whose leave phase aborts emits nothing (`EMPTY`). -/
theorem processTrigger_leave_abort {m : RouteMatcher} {st : RouterState}
    (u : Url)
    (h : leavePhase m st st.url st.routes = Except.ok PhaseOutcome.abort) :
    processTrigger m st u = Except.ok [] := by
  simp only [processTrigger, h]

/-- A pass whose leave phase redirects emits only the
`InterceptLeaveRedirect` trigger. -/
theorem processTrigger_leave_redirect {m : RouteMatcher} {st : RouterState}
    {u2 : Url} (u : Url)
    (h : leavePhase m st st.url st.routes =
      Except.ok (PhaseOutcome.redirect u2)) :
    processTrigger m st u = Except.ok [Action.InterceptLeaveRedirect u2] := by
  simp only [processTrigger, h]

/-- A pass whose leave phase throws propagates the exception. -/
theorem processTrigger_leave_throw {m : RouteMatcher} {st : RouterState}
    {e : Err} (u : Url)
    (h : leavePhase m st st.url st.routes = Except.error e) :
    processTrigger m st u = Except.error e := by
  simp only [processTrigger, h]

/-- A pass whose enter phase aborts emits nothing (`EMPTY`). -/
theorem processTrigger_enter_abort {m : RouteMatcher} {st : RouterState}
    {L : List Action} (u : Url)
    (hL : leavePhase m st st.url st.routes =
      Except.ok (PhaseOutcome.proceed L))
    (h : enterPhase m st st.url (m.«match» u.path) =
      Except.ok PhaseOutcome.abort) :
    processTrigger m st u = Except.ok [] := by
  simp only [processTrigger, hL, h]

/-- A pass whose enter phase redirects emits only the
`InterceptEnterRedirect` trigger. -/
theorem processTrigger_enter_redirect {m : RouteMatcher} {st : RouterState}
    {L : List Action} {u2 : Url} (u : Url)
    (hL : leavePhase m st st.url st.routes =
      Except.ok (PhaseOutcome.proceed L))
    (h : enterPhase m st st.url (m.«match» u.path) =
      Except.ok (PhaseOutcome.redirect u2)) :
    processTrigger m st u = Except.ok [Action.InterceptEnterRedirect u2] := by
  simp only [processTrigger, hL, h]

/-- A pass whose enter phase throws propagates the exception. -/
theorem processTrigger_enter_throw {m : RouteMatcher} {st : RouterState}
    {L : List Action} {e : Err} (u : Url)
    (hL : leavePhase m st st.url st.routes =
      Except.ok (PhaseOutcome.proceed L))
    (h : enterPhase m st st.url (m.«match» u.path) = Except.error e) :
    processTrigger m st u = Except.error e := by
  simp only [processTrigger, hL, h]

/-- A pass whose two phases proceed emits the collected leave actions,
one commit, the collected enter actions — in that order. -/
theorem processTrigger_success {m : RouteMatcher} {st : RouterState}
    {L E : List Action} (u : Url)
    (hL : leavePhase m st st.url st.routes =
      Except.ok (PhaseOutcome.proceed L))
    (hE : enterPhase m st st.url (m.«match» u.path) =
      Except.ok (PhaseOutcome.proceed E)) :
    processTrigger m st u =
      Except.ok (L ++ Action.NavigationComplete u (m.«match» u.path) :: E) := by
  simp only [processTrigger, hL, hE]

/-- Every collected dispatch action comes from some route's dispatch hook
returning it. -/
theorem collectDispatch_mem
    {dispatch : Route → Option (RouterState → Url → Route → Except Err Action)}
    {store : RouterState} {prevUrl : Url} {routes : List Route} {a : Action}
    (h : a ∈ collectDispatch dispatch store prevUrl routes) :
    ∃ r ∈ routes, ∃ d, dispatch r = some d ∧
      d store prevUrl r = Except.ok a := by
  induction routes with
  | nil => simp [collectDispatch] at h
  | cons r rest ih =>
    cases hd : dispatch r with
    | none =>
      simp only [collectDispatch, hd] at h
      obtain ⟨x, hx, hrest⟩ := ih h
      exact ⟨x, List.mem_cons_of_mem r hx, hrest⟩
    | some d =>
      cases hres : d store prevUrl r with
      | error e =>
        simp only [collectDispatch, hd, hres] at h
        obtain ⟨x, hx, hrest⟩ := ih h
        exact ⟨x, List.mem_cons_of_mem r hx, hrest⟩
      | ok a0 =>
        simp only [collectDispatch, hd, hres, List.mem_cons] at h
        cases h with
        | inl h =>
          subst h
          exact ⟨r, List.mem_cons_self r rest, d, hd, hres⟩
        | inr h =>
          obtain ⟨x, hx, hrest⟩ := ih h
          exact ⟨x, List.mem_cons_of_mem r hx, hrest⟩

/-- A pass that emits no redirect trigger ends the drain: the driver folds
its actions and stops. -/
theorem drainTrigger_stop {m : RouteMatcher} {st : RouterState} {u : Url}
    {acts : List Action} (fuel : Nat)
    (h : processTrigger m st u = Except.ok acts)
    (hr : redirectTarget acts = none) :
    drainTrigger m (fuel + 1) st u =
      Except.ok (some (applyActions st acts, acts)) := by
  simp only [drainTrigger, h, hr]

/-- A pass that emits a redirect trigger continues the drain at the
redirect target, prepending the pass's emission to the log. -/
theorem drainTrigger_redirect {m : RouteMatcher} {st : RouterState} {u : Url}
    {acts : List Action} {u2 : Url} (fuel : Nat)
    (h : processTrigger m st u = Except.ok acts)
    (hr : redirectTarget acts = some u2) :
    drainTrigger m (fuel + 1) st u =
      match drainTrigger m fuel (applyActions st acts) u2 with
      | Except.error e => Except.error e
      | Except.ok none => Except.ok none
      | Except.ok (some (st3, acts2)) => Except.ok (some (st3, acts ++ acts2)) := by
  simp only [drainTrigger, h, hr]

/-- A throwing pass propagates the exception out of the drain. -/
theorem drainTrigger_throw {m : RouteMatcher} {st : RouterState} {u : Url}
    {e : Err} (fuel : Nat)
    (h : processTrigger m st u = Except.error e) :
    drainTrigger m (fuel + 1) st u = Except.error e := by
  simp only [drainTrigger, h]

/-- A completed drain's log starts with the trigger's own pass, computed
against the state the drain started from. -/
theorem drainTrigger_first_pass {m : RouteMatcher} {fuel : Nat}
    {st : RouterState} {u : Url} {stF : RouterState} {log : List Action}
    (h : drainTrigger m fuel st u = Except.ok (some (stF, log))) :
    ∃ acts rest, processTrigger m st u = Except.ok acts ∧
      log = acts ++ rest := by
  cases fuel with
  | zero => simp [drainTrigger] at h
  | succ fuel =>
    cases hp : processTrigger m st u with
    | error e => simp [drainTrigger, hp] at h
    | ok acts =>
      cases hr : redirectTarget acts with
      | none =>
        refine ⟨acts, [], rfl, ?_⟩
        rw [drainTrigger_stop fuel hp hr] at h
        simp only [Except.ok.injEq, Option.some.injEq, Prod.mk.injEq] at h
        simp [h.2.symm]
      | some u2 =>
        rw [drainTrigger_redirect fuel hp hr] at h
        cases hd : drainTrigger m fuel (applyActions st acts) u2 with
        | error e => rw [hd] at h; simp at h
        | ok o =>
          rw [hd] at h
          cases o with
          | none => simp at h
          | some p =>
            obtain ⟨st3, acts2⟩ := p
            refine ⟨acts, acts2, rfl, ?_⟩
            simp only [Except.ok.injEq, Option.some.injEq,
              Prod.mk.injEq] at h
            exact h.2.symm

/-- Two queued triggers are drained one after the other, logs
concatenated. -/
theorem runTriggers_pair {m : RouteMatcher} {fuel : Nat} {st : RouterState}
    {a b : Url} {stA stB : RouterState} {logA logB : List Action}
    (hA : drainTrigger m fuel st a = Except.ok (some (stA, logA)))
    (hB : drainTrigger m fuel stA b = Except.ok (some (stB, logB))) :
    runTriggers m fuel st [a, b] = Except.ok (some (stB, logA ++ logB)) := by
  simp only [runTriggers, hA, hB, List.append_nil]


/-! ## Claims -/

/-- C1: the reducer replaces `url` and `routes` together on
`NavigationComplete` and leaves the state unchanged on every other
action, and a successful pipeline pass only ever emits a
`NavigationComplete` carrying the trigger url paired with exactly
`RouteMatcher.match` of that url's path — folding the pass's emission
therefore commits `url` and its own match result atomically. -/
theorem routerState_invariant_atomic :
    (∀ (st : RouterState) (url : Url) (routes : List Route),
      routerReducer st (Action.NavigationComplete url routes) =
        { url := url, routes := routes })
    ∧ (∀ (st : RouterState) (a : Action), isNavigationComplete a = false →
        routerReducer st a = st)
    ∧ (∀ (m : RouteMatcher) (st : RouterState) (u : Url) (L E acts : List Action),
        leavePhase m st st.url st.routes = Except.ok (PhaseOutcome.proceed L) →
        enterPhase m st st.url (m.«match» u.path) =
          Except.ok (PhaseOutcome.proceed E) →
        (∀ a ∈ L, isNavigationComplete a = false) →
        (∀ a ∈ E, isNavigationComplete a = false) →
        processTrigger m st u = Except.ok acts →
        (∀ url routes, Action.NavigationComplete url routes ∈ acts →
          url = u ∧ routes = m.«match» u.path) ∧
        applyActions st acts = { url := u, routes := m.«match» u.path }) := by
  refine ⟨fun st url routes => rfl, fun st a h => routerReducer_other st h, ?_⟩
  intro m st u L E acts hL hE hLnc hEnc hp
  rw [processTrigger_success u hL hE] at hp
  have hacts : acts = L ++ Action.NavigationComplete u (m.«match» u.path) :: E :=
    (Except.ok.injEq _ _ ▸ hp).symm
  subst hacts
  constructor
  · intro url routes hmem
    rcases List.mem_append.mp hmem with hml | hmr
    · exact absurd (hLnc _ hml) (by simp [isNavigationComplete])
    · rcases List.mem_cons.mp hmr with heq | hme
      · obtain ⟨h1, h2⟩ := Action.NavigationComplete.inj heq
        exact ⟨h1, h2⟩
      · exact absurd (hEnc _ hme) (by simp [isNavigationComplete])
  · exact applyActions_success st u (m.«match» u.path) hLnc hEnc

/-- Witness for C1 on the worked example: navigating the empty initial
state to `/a` commits `{ url := /a, routes := match(/a) }`. -/
theorem routerState_invariant_atomic_witness :
    (∀ url routes,
      Action.NavigationComplete url routes ∈
        [Action.NavigationComplete urlA (exMatcher.«match» urlA.path)] →
      url = urlA ∧ routes = exMatcher.«match» urlA.path) ∧
    applyActions routerInitialState
      [Action.NavigationComplete urlA (exMatcher.«match» urlA.path)] =
      { url := urlA, routes := exMatcher.«match» urlA.path } :=
  routerState_invariant_atomic.2.2 exMatcher routerInitialState urlA [] []
    [Action.NavigationComplete urlA (exMatcher.«match» urlA.path)]
    rfl rfl (by simp) (by simp) rfl

/-- C2: a successful pass — every guard lets navigation continue and no
hook throws — emits, in exactly this order: every `dispatchOnLeave`
action collected over the current hierarchy in route order, then a single
`NavigationComplete` carrying the target url and its matched routes, then
every `dispatchOnEnter` action collected over the candidate hierarchy in
route order. -/
theorem pass_emits_leave_commit_enter_in_order
    (m : RouteMatcher) (st : RouterState) (u : Url)
    (hLclean : ∀ r ∈ st.routes,
      routeClean (leaveGuard m) (leaveDispatch m) st st.url r)
    (hEclean : ∀ r ∈ m.«match» u.path,
      routeClean (enterGuard m) (enterDispatch m) st st.url r) :
    processTrigger m st u = Except.ok
      (collectDispatch (leaveDispatch m) st st.url st.routes ++
        Action.NavigationComplete u (m.«match» u.path) ::
          collectDispatch (enterDispatch m) st st.url (m.«match» u.path)) :=
  processTrigger_success u (hookPhase_clean st.routes hLclean)
    (hookPhase_clean (m.«match» u.path) hEclean)

/-- Witness for C2: from `/a` (route 1 dispatches on leave and enter) to
an unmatched path, the pass emits the leave action, the commit, nothing
else. -/
theorem pass_emits_leave_commit_enter_in_order_witness :
    processTrigger exMatcherRedirect stA { path := "/x" } = Except.ok
      (collectDispatch (leaveDispatch exMatcherRedirect) stA stA.url stA.routes ++
        Action.NavigationComplete { path := "/x" }
            (exMatcherRedirect.«match» "/x") ::
          collectDispatch (enterDispatch exMatcherRedirect) stA stA.url
            (exMatcherRedirect.«match» "/x")) := by
  have hLclean : ∀ r ∈ stA.routes,
      routeClean (leaveGuard exMatcherRedirect) (leaveDispatch exMatcherRedirect)
        stA stA.url r := by
    intro r hr
    have hrA : r = routeA := by simpa [stA] using hr
    subst hrA
    constructor
    · intro g hg
      have : leaveGuard exMatcherRedirect routeA = none := rfl
      rw [this] at hg
      exact Option.noConfusion hg
    · intro d hd
      have : leaveDispatch exMatcherRedirect routeA = some leaveHookD := rfl
      rw [this] at hd
      cases hd
      exact ⟨Action.Other 10, rfl⟩
  have hEclean : ∀ r ∈ exMatcherRedirect.«match» "/x",
      routeClean (enterGuard exMatcherRedirect) (enterDispatch exMatcherRedirect)
        stA stA.url r := by
    intro r hr
    have : exMatcherRedirect.«match» "/x" = [] := rfl
    rw [this] at hr
    exact absurd hr (List.not_mem_nil r)
  exact pass_emits_leave_commit_enter_in_order exMatcherRedirect stA
    { path := "/x" } hLclean hEclean

/-- A hook that throws — the guard itself, or the dispatch hook after the
guard block fell through — stops the loop at once with the exception. -/
theorem hookPhase_cons_throw
    {guard : Route → Option (RouterState → Url → Route → Except Err GuardResult)}
    {dispatch : Route → Option (RouterState → Url → Route → Except Err Action)}
    {store : RouterState} {prevUrl : Url} {r : Route} {rest : List Route} {e : Err}
    (h : guardStep (guard r) store prevUrl r = Except.error e ∨
      (guardStep (guard r) store prevUrl r = Except.ok none ∧
        ∃ d, dispatch r = some d ∧ d store prevUrl r = Except.error e)) :
    hookPhase guard dispatch store prevUrl (r :: rest) = Except.error e := by
  cases h with
  | inl h => simp only [hookPhase, h]
  | inr h =>
    obtain ⟨hgs, d, hd, hres⟩ := h
    exact hookPhase_cons_dispatch_throw hgs hd hres

/-- C3: two `Navigate` triggers queued back-to-back are processed strictly
in dispatch order and without overlap: the serialized driver drains A's
entire pipeline — redirect re-entries included — before B's pipeline
begins, the observed action log is A's log followed by B's, and B's first
pass snapshots the store exactly as committed by A. -/
theorem back_to_back_triggers_serialized
    (m : RouteMatcher) (fuel : Nat) (st : RouterState) (a b : Url)
    (stA1 stB1 : RouterState) (logA logB : List Action)
    (hA : drainTrigger m fuel st a = Except.ok (some (stA1, logA)))
    (hB : drainTrigger m fuel stA1 b = Except.ok (some (stB1, logB))) :
    runTriggers m fuel st [a, b] = Except.ok (some (stB1, logA ++ logB)) ∧
    ∃ acts rest, processTrigger m stA1 b = Except.ok acts ∧
      logB = acts ++ rest :=
  ⟨runTriggers_pair hA hB, drainTrigger_first_pass hB⟩

/-- Witness for C3 on the worked example: `navigate(/a)` then
`navigate(/b)`; A commits `/a`, B's pass reads A's committed hierarchy
and is rejected by route 2's enter guard. -/
theorem back_to_back_triggers_serialized_witness :
    runTriggers exMatcher 1 routerInitialState [urlA, urlB] =
      Except.ok (some ({ url := urlA, routes := [routeA] },
        [Action.NavigationComplete urlA [routeA]] ++ ([] : List Action))) ∧
    ∃ acts rest,
      processTrigger exMatcher { url := urlA, routes := [routeA] } urlB =
        Except.ok acts ∧ ([] : List Action) = acts ++ rest :=
  back_to_back_triggers_serialized exMatcher 1 routerInitialState urlA urlB
    { url := urlA, routes := [routeA] } { url := urlA, routes := [routeA] }
    [Action.NavigationComplete urlA [routeA]] [] rfl rfl

/-- C4: when an `interceptEnter` for target `u1` redirects to `u2`, the
pass emits only the redirect trigger and the driver re-runs the full
pipeline for `u2` as a fresh trigger — re-snapshotting the store and
re-running the leave phase, not substituting `u2` into the in-flight
pass — so the final committed state is `u2` paired with its own matched
routes. -/
theorem enter_redirect_reruns_and_commits
    (m : RouteMatcher) (fuel : Nat) (st : RouterState) (u1 u2 : Url)
    (L E : List Action)
    (hL : leavePhase m st st.url st.routes = Except.ok (PhaseOutcome.proceed L))
    (hred : enterPhase m st st.url (m.«match» u1.path) =
      Except.ok (PhaseOutcome.redirect u2))
    (hE : enterPhase m st st.url (m.«match» u2.path) =
      Except.ok (PhaseOutcome.proceed E))
    (hLnc : ∀ a ∈ L, isNavigationComplete a = false)
    (hEnc : ∀ a ∈ E, isNavigationComplete a = false) :
    drainTrigger m (fuel + 2) st u1 = Except.ok (some
      ({ url := u2, routes := m.«match» u2.path },
        Action.InterceptEnterRedirect u2 ::
          (L ++ Action.NavigationComplete u2 (m.«match» u2.path) :: E))) := by
  have h1 : processTrigger m st u1 =
      Except.ok [Action.InterceptEnterRedirect u2] :=
    processTrigger_enter_redirect u1 hL hred
  have h2 : processTrigger m st u2 =
      Except.ok (L ++ Action.NavigationComplete u2 (m.«match» u2.path) :: E) :=
    processTrigger_success u2 hL hE
  have h3 : drainTrigger m (fuel + 1) st u2 = Except.ok (some
      ({ url := u2, routes := m.«match» u2.path },
        L ++ Action.NavigationComplete u2 (m.«match» u2.path) :: E)) := by
    rw [drainTrigger_stop fuel h2 (redirectTarget_commit L E u2 (m.«match» u2.path)),
      applyActions_success st u2 (m.«match» u2.path) hLnc hEnc]
  have happ : applyActions st [Action.InterceptEnterRedirect u2] = st := rfl
  show drainTrigger m (fuel + 1 + 1) st u1 = _
  rw [drainTrigger_redirect (fuel + 1) h1 rfl, happ, h3]
  rfl

/-- Witness for C4: from `/a`, `navigate(/b)` is redirected by route 2's
enter guard to `/a`; the re-run collects the leave and enter dispatch
actions afresh and commits `/a`. -/
theorem enter_redirect_reruns_and_commits_witness :
    drainTrigger exMatcherRedirect (0 + 2) stA urlB = Except.ok (some
      ({ url := urlA, routes := exMatcherRedirect.«match» urlA.path },
        Action.InterceptEnterRedirect urlA ::
          ([Action.Other 10] ++
            Action.NavigationComplete urlA (exMatcherRedirect.«match» urlA.path) ::
              [Action.Other 20]))) :=
  enter_redirect_reruns_and_commits exMatcherRedirect 0 stA urlB urlA
    [Action.Other 10] [Action.Other 20] rfl rfl rfl
    (by decide) (by decide)

/-- C5: a reached guard returning `false` — an `interceptLeave` on the
current hierarchy or an `interceptEnter` on the candidate hierarchy —
aborts the whole navigation silently: the pass emits no actions at all,
so the committed state after the pipeline equals the state before it. -/
theorem guard_rejection_aborts_silently
    (m : RouteMatcher) (st : RouterState) (u : Url) :
    (∀ (pre post : List Route) (r : Route)
        (g : RouterState → Url → Route → Except Err GuardResult),
      st.routes = pre ++ r :: post →
      (∀ x ∈ pre, routeClean (leaveGuard m) (leaveDispatch m) st st.url x) →
      leaveGuard m r = some g →
      g st st.url r = Except.ok (GuardResult.bool false) →
      processTrigger m st u = Except.ok [] ∧ applyActions st [] = st) ∧
    (∀ (L : List Action) (pre post : List Route) (r : Route)
        (g : RouterState → Url → Route → Except Err GuardResult),
      leavePhase m st st.url st.routes = Except.ok (PhaseOutcome.proceed L) →
      m.«match» u.path = pre ++ r :: post →
      (∀ x ∈ pre, routeClean (enterGuard m) (enterDispatch m) st st.url x) →
      enterGuard m r = some g →
      g st st.url r = Except.ok (GuardResult.bool false) →
      processTrigger m st u = Except.ok [] ∧ applyActions st [] = st) := by
  constructor
  · intro pre post r g hsplit hclean hg hres
    have habort : leavePhase m st st.url st.routes =
        Except.ok PhaseOutcome.abort := by
      show hookPhase (leaveGuard m) (leaveDispatch m) st st.url st.routes = _
      rw [hsplit, hookPhase_append_clean pre (r :: post) hclean,
        hookPhase_cons_reject hg hres]
    exact ⟨processTrigger_leave_abort u habort, rfl⟩
  · intro L pre post r g hL hsplit hclean hg hres
    have habort : enterPhase m st st.url (m.«match» u.path) =
        Except.ok PhaseOutcome.abort := by
      show hookPhase (enterGuard m) (enterDispatch m) st st.url (m.«match» u.path) = _
      rw [hsplit, hookPhase_append_clean pre (r :: post) hclean,
        hookPhase_cons_reject hg hres]
    exact ⟨processTrigger_enter_abort u hL habort, rfl⟩

/-- Witness for C5 on the worked example: from `/a`, `navigate(/b)` is
rejected by route 2's enter guard; the pass emits nothing and the state
is unchanged. -/
theorem guard_rejection_aborts_silently_witness :
    processTrigger exMatcher stA urlB = Except.ok [] ∧
    applyActions stA [] = stA :=
  (guard_rejection_aborts_silently exMatcher stA urlB).2 [] [] [] routeB
    rejectHook rfl rfl (by intro x hx; exact absurd hx (List.not_mem_nil x))
    rfl rfl

/-- C6: a throwing guard or dispatch hook — in either phase — propagates
its exception out of the pass and out of the serialized driver; no
emission happens at all, in particular no `NavigationComplete`, so no
partial commit occurs and the committed state stays at its pre-pass
value. -/
theorem hook_fault_propagates_without_commit
    (m : RouteMatcher) (st : RouterState) (u : Url) (e : Err) (fuel : Nat) :
    (∀ (pre post : List Route) (r : Route),
      st.routes = pre ++ r :: post →
      (∀ x ∈ pre, routeClean (leaveGuard m) (leaveDispatch m) st st.url x) →
      (guardStep (leaveGuard m r) st st.url r = Except.error e ∨
        (guardStep (leaveGuard m r) st st.url r = Except.ok none ∧
          ∃ d, leaveDispatch m r = some d ∧ d st st.url r = Except.error e)) →
      processTrigger m st u = Except.error e ∧
      drainTrigger m (fuel + 1) st u = Except.error e) ∧
    (∀ (L : List Action) (pre post : List Route) (r : Route),
      leavePhase m st st.url st.routes = Except.ok (PhaseOutcome.proceed L) →
      m.«match» u.path = pre ++ r :: post →
      (∀ x ∈ pre, routeClean (enterGuard m) (enterDispatch m) st st.url x) →
      (guardStep (enterGuard m r) st st.url r = Except.error e ∨
        (guardStep (enterGuard m r) st st.url r = Except.ok none ∧
          ∃ d, enterDispatch m r = some d ∧ d st st.url r = Except.error e)) →
      processTrigger m st u = Except.error e ∧
      drainTrigger m (fuel + 1) st u = Except.error e) := by
  constructor
  · intro pre post r hsplit hclean hthrow
    have herr : leavePhase m st st.url st.routes = Except.error e := by
      show hookPhase (leaveGuard m) (leaveDispatch m) st st.url st.routes = _
      rw [hsplit, hookPhase_append_clean pre (r :: post) hclean,
        hookPhase_cons_throw hthrow]
    have hp := processTrigger_leave_throw u herr
    exact ⟨hp, drainTrigger_throw fuel hp⟩
  · intro L pre post r hL hsplit hclean hthrow
    have herr : enterPhase m st st.url (m.«match» u.path) = Except.error e := by
      show hookPhase (enterGuard m) (enterDispatch m) st st.url (m.«match» u.path) = _
      rw [hsplit, hookPhase_append_clean pre (r :: post) hclean,
        hookPhase_cons_throw hthrow]
    have hp := processTrigger_enter_throw u hL herr
    exact ⟨hp, drainTrigger_throw fuel hp⟩

/-- Witness for C6: from `/a`, `navigate(/b)` hits route 2's throwing
enter guard; the exception (payload 7) propagates and nothing is
emitted. -/
theorem hook_fault_propagates_without_commit_witness :
    processTrigger exMatcherThrow stA urlB = Except.error (7 : Nat) ∧
    drainTrigger exMatcherThrow (0 + 1) stA urlB = Except.error (7 : Nat) :=
  (hook_fault_propagates_without_commit exMatcherThrow stA urlB (7 : Nat) 0).2
    [] [] [] routeB rfl rfl
    (by intro x hx; exact absurd hx (List.not_mem_nil x))
    (Or.inl rfl)

/-- C7: if no route in the current hierarchy or in the candidate hierarchy
for `u` has a guard hook (and the dispatch hooks, if any, return plain
side-effect actions), the pipeline for `navigate(u)` commits
`state.url = u` and `state.routes = RouteMatcher.match(u.path)`. -/
theorem no_guards_navigation_commits
    (m : RouteMatcher) (st : RouterState) (u : Url) (fuel : Nat)
    (hLg : ∀ r ∈ st.routes, leaveGuard m r = none)
    (hEg : ∀ r ∈ m.«match» u.path, enterGuard m r = none)
    (hLd : ∀ r ∈ st.routes, ∀ d, leaveDispatch m r = some d →
      ∃ a, d st st.url r = Except.ok a ∧ isNavigationComplete a = false)
    (hEd : ∀ r ∈ m.«match» u.path, ∀ d, enterDispatch m r = some d →
      ∃ a, d st st.url r = Except.ok a ∧ isNavigationComplete a = false) :
    ∃ acts, drainTrigger m (fuel + 1) st u = Except.ok (some
      ({ url := u, routes := m.«match» u.path }, acts)) := by
  have hLclean : ∀ r ∈ st.routes,
      routeClean (leaveGuard m) (leaveDispatch m) st st.url r := by
    intro r hr
    refine ⟨fun g hg => ?_, fun d hd => ?_⟩
    · rw [hLg r hr] at hg
      exact Option.noConfusion hg
    · obtain ⟨a, ha, _⟩ := hLd r hr d hd
      exact ⟨a, ha⟩
  have hEclean : ∀ r ∈ m.«match» u.path,
      routeClean (enterGuard m) (enterDispatch m) st st.url r := by
    intro r hr
    refine ⟨fun g hg => ?_, fun d hd => ?_⟩
    · rw [hEg r hr] at hg
      exact Option.noConfusion hg
    · obtain ⟨a, ha, _⟩ := hEd r hr d hd
      exact ⟨a, ha⟩
  have hLnc : ∀ a ∈ collectDispatch (leaveDispatch m) st st.url st.routes,
      isNavigationComplete a = false := by
    intro a ha
    obtain ⟨r, hr, d, hd, hres⟩ := collectDispatch_mem ha
    obtain ⟨a2, ha2, hnc⟩ := hLd r hr d hd
    rw [hres] at ha2
    cases ha2
    exact hnc
  have hEnc : ∀ a ∈ collectDispatch (enterDispatch m) st st.url (m.«match» u.path),
      isNavigationComplete a = false := by
    intro a ha
    obtain ⟨r, hr, d, hd, hres⟩ := collectDispatch_mem ha
    obtain ⟨a2, ha2, hnc⟩ := hEd r hr d hd
    rw [hres] at ha2
    cases ha2
    exact hnc
  refine ⟨collectDispatch (leaveDispatch m) st st.url st.routes ++
    Action.NavigationComplete u (m.«match» u.path) ::
      collectDispatch (enterDispatch m) st st.url (m.«match» u.path), ?_⟩
  rw [drainTrigger_stop fuel
    (processTrigger_success u (hookPhase_clean st.routes hLclean)
      (hookPhase_clean (m.«match» u.path) hEclean))
    (redirectTarget_commit _ _ u (m.«match» u.path)),
    applyActions_success st u (m.«match» u.path) hLnc hEnc]

/-- Witness for C7: from `/a` under the dispatch-only registry,
`navigate(/a)` commits `/a` with its matched hierarchy. -/
theorem no_guards_navigation_commits_witness :
    ∃ acts, drainTrigger exMatcherRedirect (0 + 1) stA urlA = Except.ok (some
      ({ url := urlA, routes := exMatcherRedirect.«match» urlA.path }, acts)) := by
  have hmem : ∀ r ∈ stA.routes, r = routeA := by
    intro r hr
    simpa [stA] using hr
  have hmemE : ∀ r ∈ exMatcherRedirect.«match» urlA.path, r = routeA := by
    intro r hr
    have h1 : exMatcherRedirect.«match» urlA.path = [routeA] := rfl
    rw [h1] at hr
    simpa using hr
  refine no_guards_navigation_commits exMatcherRedirect stA urlA 0 ?_ ?_ ?_ ?_
  · intro r hr
    rw [hmem r hr]
    rfl
  · intro r hr
    rw [hmemE r hr]
    rfl
  · intro r hr d hd
    rw [hmem r hr] at hd
    have h2 : leaveDispatch exMatcherRedirect routeA = some leaveHookD := rfl
    rw [h2] at hd
    cases hd
    exact ⟨Action.Other 10, rfl, rfl⟩
  · intro r hr d hd
    rw [hmemE r hr] at hd
    have h2 : enterDispatch exMatcherRedirect routeA = some enterHookD := rfl
    rw [h2] at hd
    cases hd
    exact ⟨Action.Other 20, rfl, rfl⟩

/-- C8: router construction synthesizes exactly one trigger: a single
`Navigate` carrying the current url, and nothing else. -/
theorem bootstrap_synthesizes_single_navigate (currentUrl : Url) :
    bootstrapReaction currentUrl = [Action.Navigate currentUrl] ∧
    (bootstrapReaction currentUrl).length = 1 ∧
    ∀ a ∈ bootstrapReaction currentUrl, a = Action.Navigate currentUrl := by
  refine ⟨rfl, rfl, ?_⟩
  intro a ha
  simpa [bootstrapReaction] using ha

/-- C9: when a reached guard returns a url, the pass's sole emission is
the corresponding redirect trigger (`InterceptLeaveRedirect` for a leave
guard, `InterceptEnterRedirect` for an enter guard): every dispatch
action collected earlier in the pass — in particular the whole collected
leave list when an enter guard redirects — is discarded and never
emitted. -/
theorem redirect_discards_collected_actions
    (m : RouteMatcher) (st : RouterState) (u u2 : Url) :
    (∀ (pre post : List Route) (r : Route)
        (g : RouterState → Url → Route → Except Err GuardResult),
      st.routes = pre ++ r :: post →
      (∀ x ∈ pre, routeClean (leaveGuard m) (leaveDispatch m) st st.url x) →
      leaveGuard m r = some g →
      g st st.url r = Except.ok (GuardResult.url u2) →
      processTrigger m st u = Except.ok [Action.InterceptLeaveRedirect u2]) ∧
    (∀ (L : List Action) (pre post : List Route) (r : Route)
        (g : RouterState → Url → Route → Except Err GuardResult),
      leavePhase m st st.url st.routes = Except.ok (PhaseOutcome.proceed L) →
      m.«match» u.path = pre ++ r :: post →
      (∀ x ∈ pre, routeClean (enterGuard m) (enterDispatch m) st st.url x) →
      enterGuard m r = some g →
      g st st.url r = Except.ok (GuardResult.url u2) →
      processTrigger m st u = Except.ok [Action.InterceptEnterRedirect u2]) := by
  constructor
  · intro pre post r g hsplit hclean hg hres
    have hred : leavePhase m st st.url st.routes =
        Except.ok (PhaseOutcome.redirect u2) := by
      show hookPhase (leaveGuard m) (leaveDispatch m) st st.url st.routes = _
      rw [hsplit, hookPhase_append_clean pre (r :: post) hclean,
        hookPhase_cons_redirect hg hres]
    exact processTrigger_leave_redirect u hred
  · intro L pre post r g hL hsplit hclean hg hres
    have hred : enterPhase m st st.url (m.«match» u.path) =
        Except.ok (PhaseOutcome.redirect u2) := by
      show hookPhase (enterGuard m) (enterDispatch m) st st.url (m.«match» u.path) = _
      rw [hsplit, hookPhase_append_clean pre (r :: post) hclean,
        hookPhase_cons_redirect hg hres]
    exact processTrigger_enter_redirect u hL hred

/-- Witness for C9: from `/a` (whose route collects a leave action),
`navigate(/b)` is redirected by route 2's enter guard to `/a`; the pass
emits only the redirect trigger — the collected leave action is
dropped. -/
theorem redirect_discards_collected_actions_witness :
    processTrigger exMatcherRedirect stA urlB =
      Except.ok [Action.InterceptEnterRedirect urlA] :=
  (redirect_discards_collected_actions exMatcherRedirect stA urlB urlA).2
    [Action.Other 10] [] [] routeB redirectHookA rfl rfl
    (by intro x hx; exact absurd hx (List.not_mem_nil x)) rfl rfl

/-- C10: a route whose `routeConfigId` has no entry in the registry
(`getRouteConfig` returns `undefined`) is transparent to both phases: all
four hooks are skipped and the rest of the pass is processed exactly as
if the route were absent — a missing config never aborts, redirects or
faults a navigation. -/
theorem missing_config_is_skipped
    (m : RouteMatcher) (store : RouterState) (prevUrl : Url)
    (pre post : List Route) (r : Route)
    (h : m.getRouteConfig r.routeConfigId = none) :
    leavePhase m store prevUrl (pre ++ r :: post) =
      leavePhase m store prevUrl (pre ++ post) ∧
    enterPhase m store prevUrl (pre ++ r :: post) =
      enterPhase m store prevUrl (pre ++ post) := by
  have hlg : leaveGuard m r = none := by
    simp [leaveGuard, h]
  have hld : leaveDispatch m r = none := by
    simp [leaveDispatch, h]
  have heg : enterGuard m r = none := by
    simp [enterGuard, h]
  have hed : enterDispatch m r = none := by
    simp [enterDispatch, h]
  constructor
  · exact hookPhase_append_congr pre
      (hookPhase_cons_skip (by rw [hlg]; rfl) hld)
  · exact hookPhase_append_congr pre
      (hookPhase_cons_skip (by rw [heg]; rfl) hed)

/-- Witness for C10: a route with the unregistered id 99 sitting after
`/a`'s route is skipped by both phases. -/
theorem missing_config_is_skipped_witness :
    leavePhase exMatcher stA stA.url ([routeA] ++ { routeConfigId := 99 } :: []) =
      leavePhase exMatcher stA stA.url ([routeA] ++ []) ∧
    enterPhase exMatcher stA stA.url ([routeA] ++ { routeConfigId := 99 } :: []) =
      enterPhase exMatcher stA stA.url ([routeA] ++ []) :=
  missing_config_is_skipped exMatcher stA stA.url [routeA] []
    { routeConfigId := 99 } rfl

end Router
